import Mathlib

/-!
Verification of the dual-number forward-mode automatic-differentiation
library in `src/lib.rs` (`pub struct Dual<F> { real: F, dual: F }` and its
trait implementations).

The Rust type is generic over a floating-point scalar `F : num::Float`
(instantiated at `f32`/`f64`).  The primitive scalar operations
(`+ - * /`, comparisons, `sin`, `cos`, `exp`, `ln`, `sqrt`) come from the
IEEE-754 semantics of the machine floats, outside this repository.  We
embed that scalar as `FP`: an extended rational — a finite exact rational,
`+∞`, `-∞`, or NaN — with the IEEE-754 special-value rules for every
operation.  Rounding of the transcendental library functions on finite
positive arguments is external (libm); it is abstracted as an oracle
`Approx` giving the rounded rational result on finite arguments, while the
special-value behaviour mandated by IEEE-754 (NaN on out-of-domain input,
the limits at ±∞) is fixed.  Two simplifications, neither observable by
the claims under verification: finite arithmetic is exact rather than
rounded (every concrete value evaluated by a claim is exactly
representable), and the two IEEE zeros are merged (all claim verdicts
agree on both zeros).

The `Dual` operations below are transcribed one-to-one from `src/lib.rs`.
-/

namespace Duality

/-- The scalar carrier: an IEEE-style floating-point value, with exact
rationals in place of the finite floats.  `pinf`/`ninf` are the two
infinities and `nan` is not-a-number. -/
inductive FP where
  | nan : FP
  | pinf : FP
  | ninf : FP
  | fin : ℚ → FP
deriving DecidableEq, Repr

namespace FP

/-- IEEE addition on the scalar (`impl Add for f32`): NaN is absorbing,
opposite infinities give NaN, an infinity absorbs any finite value, and
finite addition is exact. -/
def fadd : FP → FP → FP
  | nan, _ => nan
  | _, nan => nan
  | pinf, ninf => nan
  | ninf, pinf => nan
  | pinf, _ => pinf
  | _, pinf => pinf
  | ninf, _ => ninf
  | _, ninf => ninf
  | fin p, fin q => fin (p + q)

/-- IEEE negation on the scalar. -/
def fneg : FP → FP
  | nan => nan
  | pinf => ninf
  | ninf => pinf
  | fin q => fin (-q)

/-- IEEE subtraction on the scalar: `a - b = a + (-b)` exactly. -/
def fsub (a b : FP) : FP := fadd a (fneg b)

/-- IEEE multiplication on the scalar: NaN absorbing, `∞ · 0 = NaN`,
`∞ · x` for nonzero finite `x` is a sign-adjusted infinity, finite
multiplication exact. -/
def fmul : FP → FP → FP
  | nan, _ => nan
  | _, nan => nan
  | pinf, pinf => pinf
  | pinf, ninf => ninf
  | ninf, pinf => ninf
  | ninf, ninf => pinf
  | pinf, fin q => if q = 0 then nan else if q < 0 then ninf else pinf
  | fin q, pinf => if q = 0 then nan else if q < 0 then ninf else pinf
  | ninf, fin q => if q = 0 then nan else if q < 0 then pinf else ninf
  | fin q, ninf => if q = 0 then nan else if q < 0 then pinf else ninf
  | fin p, fin q => fin (p * q)

/-- IEEE division on the scalar: NaN absorbing, `∞/∞ = NaN`,
`x/∞ = 0`, `x/0` is `NaN` at `x = 0` and a signed infinity otherwise
(the model's single zero behaves as `+0`), finite division exact. -/
def fdiv : FP → FP → FP
  | nan, _ => nan
  | _, nan => nan
  | pinf, pinf => nan
  | pinf, ninf => nan
  | ninf, pinf => nan
  | ninf, ninf => nan
  | pinf, fin q => if q < 0 then ninf else pinf
  | ninf, fin q => if q < 0 then pinf else ninf
  | fin _, pinf => fin 0
  | fin _, ninf => fin 0
  | fin p, fin q =>
      if q = 0 then (if p = 0 then nan else if p < 0 then ninf else pinf)
      else fin (p / q)

/-- IEEE strict less-than on the scalar (`PartialOrd for f32`): any
comparison involving NaN is false. -/
def flt : FP → FP → Bool
  | nan, _ => false
  | _, nan => false
  | ninf, ninf => false
  | ninf, _ => true
  | _, ninf => false
  | pinf, _ => false
  | fin _, pinf => true
  | fin p, fin q => decide (p < q)

/-- IEEE equality on the scalar (`PartialEq for f32`): NaN is unequal to
everything, including itself. -/
def fbeq : FP → FP → Bool
  | nan, _ => false
  | _, nan => false
  | pinf, pinf => true
  | ninf, ninf => true
  | fin p, fin q => decide (p = q)
  | _, _ => false

/-- Whether the value is NaN (`f32::is_nan`). -/
def isNan : FP → Bool
  | nan => true
  | _ => false

/-- Whether the value is finite, i.e. neither NaN nor an infinity
(`f32::is_finite`). -/
def isFinite : FP → Bool
  | fin _ => true
  | _ => false

end FP

/-- Rounding oracle for the transcendental primitives of `num::Float` on
finite arguments at which the true result is finite: `sinQ q` stands for
the floating-point library's rounded value of `sin q`, and so on (`lnQ`
is consulted only at positive arguments, `sqrtQ` only at nonnegative
ones; elsewhere the IEEE special-value rules below apply).  Keeping the
oracle abstract makes every theorem quantified over it independent of the
particular libm rounding. -/
structure Approx where
  sinQ : ℚ → ℚ
  cosQ : ℚ → ℚ
  expQ : ℚ → ℚ
  lnQ : ℚ → ℚ
  sqrtQ : ℚ → ℚ

namespace FP

/-- IEEE sine primitive: `sin NaN = sin ±∞ = NaN`, finite arguments
rounded by the oracle. -/
def fsin (O : Approx) : FP → FP
  | nan => nan
  | pinf => nan
  | ninf => nan
  | fin q => fin (O.sinQ q)

/-- IEEE cosine primitive: `cos NaN = cos ±∞ = NaN`, finite arguments
rounded by the oracle. -/
def fcos (O : Approx) : FP → FP
  | nan => nan
  | pinf => nan
  | ninf => nan
  | fin q => fin (O.cosQ q)

/-- IEEE exponential primitive: `exp(+∞) = +∞`, `exp(-∞) = 0`, finite
arguments rounded by the oracle. -/
def fexp (O : Approx) : FP → FP
  | nan => nan
  | pinf => pinf
  | ninf => fin 0
  | fin q => fin (O.expQ q)

/-- IEEE natural-logarithm primitive: `ln` of a negative value (or of
`-∞`) is NaN, `ln 0 = -∞`, `ln(+∞) = +∞`, positive finite arguments
rounded by the oracle. -/
def fln (O : Approx) : FP → FP
  | nan => nan
  | pinf => pinf
  | ninf => nan
  | fin q => if q < 0 then nan else if q = 0 then ninf else fin (O.lnQ q)

/-- IEEE square-root primitive: `sqrt` of a negative value (or of `-∞`)
is NaN, `sqrt(+∞) = +∞`, nonnegative finite arguments rounded by the
oracle. -/
def fsqrt (O : Approx) : FP → FP
  | nan => nan
  | pinf => pinf
  | ninf => nan
  | fin q => if q < 0 then nan else fin (O.sqrtQ q)

end FP

open FP

/-- `pub struct Dual<F> { real: F, dual: F }` at the embedded scalar. -/
structure Dual where
  real : FP
  dual : FP
deriving DecidableEq, Repr

namespace Dual

/-- `Dual::new(real, deriv)`. -/
def new (real deriv : FP) : Dual := ⟨real, deriv⟩

/-- `Dual::derivative(self)`: the accessor for the dual component
(`Dual::real` is the `real` field projection). -/
def derivative (x : Dual) : FP := x.dual

/-- `impl Zero for Dual<F>`: `Dual::new(F::zero(), F::zero())`. -/
def zero : Dual := new (fin 0) (fin 0)

/-- `Zero::is_zero`: both components are zero. -/
def is_zero (x : Dual) : Bool := fbeq x.real (fin 0) && fbeq x.dual (fin 0)

/-- `impl One for Dual<F>`: `Dual::new(One::one(), One::one())` — both
components are 1. -/
def one : Dual := new (fin 1) (fin 1)

/-- `impl Add for Dual<F>`: componentwise addition. -/
def add (x y : Dual) : Dual := new (fadd x.real y.real) (fadd x.dual y.dual)

/-- `impl Sub for Dual<F>`: componentwise subtraction. -/
def sub (x y : Dual) : Dual := new (fsub x.real y.real) (fsub x.dual y.dual)

/-- `impl Neg for Dual<F>`: componentwise negation. -/
def neg (x : Dual) : Dual := new (fneg x.real) (fneg x.dual)

/-- `impl Mul for Dual<F>`: `Dual::new(self.real * other.real,
(self.real * other.dual) + (self.dual * other.real))`. -/
def mul (x y : Dual) : Dual :=
  new (fmul x.real y.real) (fadd (fmul x.real y.dual) (fmul x.dual y.real))

/-- `impl Div for Dual<F>`: `Dual::new(self.real / other.real,
((self.dual * other.real) - (self.real * other.dual)) /
(other.real * other.real))`. -/
def div (x y : Dual) : Dual :=
  new (fdiv x.real y.real)
    (fdiv (fsub (fmul x.dual y.real) (fmul x.real y.dual))
      (fmul y.real y.real))

/-- `Dual::sin`: `Dual::new(self.real.sin(), self.dual * self.real.cos())`. -/
def sin (O : Approx) (x : Dual) : Dual :=
  new (fsin O x.real) (fmul x.dual (fcos O x.real))

/-- `Dual::cos`: `Dual::new(self.real.cos(),
(-F::one()) * self.dual * self.real.sin())`. -/
def cos (O : Approx) (x : Dual) : Dual :=
  new (fcos O x.real) (fmul (fmul (fneg (fin 1)) x.dual) (fsin O x.real))

/-- `Dual::tan`: `self.sin() / self.cos()`. -/
def tan (O : Approx) (x : Dual) : Dual := div (sin O x) (cos O x)

/-- `Dual::exp`: `Dual::new(self.real.exp(), self.dual * self.real.exp())`. -/
def exp (O : Approx) (x : Dual) : Dual :=
  new (fexp O x.real) (fmul x.dual (fexp O x.real))

/-- `Dual::ln`: `Dual::new(self.real.ln(), self.dual / self.real)`. -/
def ln (O : Approx) (x : Dual) : Dual :=
  new (fln O x.real) (fdiv x.dual x.real)

/-- `Dual::sqrt`: `let two = F::one() + F::one();
Dual::new(self.real.sqrt(), self.dual / (two * self.real.sqrt()))`. -/
def sqrt (O : Approx) (x : Dual) : Dual :=
  new (fsqrt O x.real)
    (fdiv x.dual (fmul (fadd (fin 1) (fin 1)) (fsqrt O x.real)))

/-- `impl From<F> for Dual<F>`: `Dual::new(real, F::one())` — the seed
conversion, with derivative 1. -/
def fromF (real : FP) : Dual := new real (fin 1)

/-- The derived `PartialEq` on `Dual<F>`: fieldwise scalar equality. -/
def beq (x y : Dual) : Bool := fbeq x.real y.real && fbeq x.dual y.dual

end Dual

/-- Textual rendering of a scalar, standing for `F: fmt::Display`. -/
def fpRepr : FP → String
  | FP.nan => "NaN"
  | FP.pinf => "inf"
  | FP.ninf => "-inf"
  | FP.fin q => if q.den = 1 then toString q.num else toString q

/-- `impl fmt::Display for Dual<F>`: when `self.real < F::zero()` the
output is `"{real}-{zero - dual}ε"`, otherwise `"{real}+{dual}ε"`. -/
def display (x : Dual) : String :=
  if flt x.real (fin 0) then
    fpRepr x.real ++ "-" ++ fpRepr (fsub (fin 0) x.dual) ++ "ε"
  else
    fpRepr x.real ++ "+" ++ fpRepr x.dual ++ "ε"

/-- A concrete rounding oracle used to instantiate universally quantified
theorems at specific inputs.  Its `sqrtQ` returns the exact square root on
perfect squares — in particular `sqrtQ 4 = 2`, agreeing with the
correctly-rounded IEEE `sqrt` there, which is exact on exactly
representable squares. -/
def sampleApprox : Approx :=
  ⟨fun _ => 0, fun _ => 1, fun _ => 1, fun _ => 0,
   fun q => (Nat.sqrt q.num.toNat : ℚ)⟩

/-- A rounding oracle whose cosine rounds to exactly 0 (and sine to 1),
used to instantiate theorems about the behaviour of `tan` at a point
where the rounded cosine vanishes. -/
def cosZeroApprox : Approx :=
  ⟨fun _ => 1, fun _ => 0, fun _ => 1, fun _ => 0, fun _ => 0⟩

section Lemmas

/-- Scalar addition with (positive) zero is the identity, NaN included. -/
theorem fadd_fin_zero (a : FP) : fadd a (fin 0) = a := by
  cases a <;> simp [fadd]

/-- Zero plus a scalar is that scalar, NaN included. -/
theorem fin_zero_fadd (a : FP) : fadd (fin 0) a = a := by
  cases a <;> simp [fadd]

/-- Scalar addition is commutative (as IEEE addition is on values). -/
theorem fadd_comm (a b : FP) : fadd a b = fadd b a := by
  cases a <;> cases b <;> simp [fadd, add_comm]

/-- Multiplying a scalar by 1 is the identity, NaN and infinities
included. -/
theorem fmul_fin_one (a : FP) : fmul a (fin 1) = a := by
  cases a <;> simp [fmul]

/-- Multiplying 1 by a scalar is the identity, NaN and infinities
included. -/
theorem fin_one_fmul (a : FP) : fmul (fin 1) a = a := by
  cases a <;> simp [fmul]

/-- Multiplying by -1 is negation, NaN and infinities included. -/
theorem fneg_one_fmul (a : FP) : fmul (fneg (fin 1)) a = fneg a := by
  cases a <;> norm_num [fmul, fneg]

/-- IEEE self-equality: a scalar equals itself exactly when it is not
NaN. -/
theorem fbeq_self (a : FP) : fbeq a a = !a.isNan := by
  cases a <;> simp [fbeq, isNan]

/-- Dividing any scalar by (positive) zero never yields a finite value:
the result is NaN or a signed infinity. -/
theorem fdiv_fin_zero_nonfinite (a : FP) : isFinite (fdiv a (fin 0)) = false := by
  cases a with
  | fin p =>
      by_cases hp : p = 0 <;> by_cases hn : p < 0 <;>
        simp [fdiv, hp, hn, isFinite]
  | _ => simp [fdiv, isFinite]

/-- Adding the `Dual` zero on the right returns the operand unchanged,
componentwise (even on NaN components). -/
theorem dual_add_zero (x : Dual) : Dual.add x Dual.zero = x := by
  simp [Dual.add, Dual.zero, Dual.new, fadd_fin_zero]

/-- Adding the `Dual` zero on the left returns the operand unchanged,
componentwise (even on NaN components). -/
theorem dual_zero_add (x : Dual) : Dual.add Dual.zero x = x := by
  simp [Dual.add, Dual.zero, Dual.new, fin_zero_fadd]

/-- `Dual` self-equality under the derived `PartialEq` holds exactly when
neither component is NaN. -/
theorem dual_beq_self (x : Dual) :
    Dual.beq x x = (!x.real.isNan && !x.dual.isNan) := by
  simp [Dual.beq, fbeq_self]

end Lemmas

section Claims

/-- C1 counterexample: `one() = (1, 1)` is not a multiplicative identity
of the implemented product rule.  At `x = (3, 4)`, `x * one()` is
`(3, 7)` (its dual component is `3·1 + 4·1 = 7`), so `x * one() == x` is
false. -/
theorem one_not_mul_identity_cex :
    Dual.mul (Dual.new (fin 3) (fin 4)) Dual.one = Dual.new (fin 3) (fin 7) ∧
    Dual.beq (Dual.mul (Dual.new (fin 3) (fin 4)) Dual.one)
      (Dual.new (fin 3) (fin 4)) = false := by
  constructor
  · simp [Dual.mul, Dual.one, Dual.new, fmul, fadd]
    try norm_num
  · simp [Dual.beq, Dual.mul, Dual.one, Dual.new, fmul, fadd, fbeq]
    try norm_num

/-- C1 (amended): `zero() = (0, 0)` is a two-sided additive identity —
`x + zero()` and `zero() + x` return `x` itself, and `x + zero() == x`
holds exactly when neither component of `x` is NaN (NaN is never equal
to itself).  `one() = (1, 1)`, however, is not a multiplicative
identity: `x * one()` has real component `a` but dual component
`a + a'` (and `one() * x` has dual component `a' + a`), so it alters
every dual number whose real component contributes. -/
theorem zero_one_identity_amended :
    (∀ x : Dual, Dual.add x Dual.zero = x ∧ Dual.add Dual.zero x = x) ∧
    (∀ x : Dual,
      Dual.beq (Dual.add x Dual.zero) x = (!x.real.isNan && !x.dual.isNan) ∧
      Dual.beq (Dual.add Dual.zero x) x = (!x.real.isNan && !x.dual.isNan)) ∧
    (∀ x : Dual,
      Dual.mul x Dual.one = Dual.new x.real (fadd x.real x.dual) ∧
      Dual.mul Dual.one x = Dual.new x.real (fadd x.dual x.real)) := by
  refine ⟨fun x => ⟨dual_add_zero x, dual_zero_add x⟩, fun x => ?_, fun x => ?_⟩
  · rw [dual_add_zero, dual_zero_add]
    exact ⟨dual_beq_self x, dual_beq_self x⟩
  · constructor
    · simp [Dual.mul, Dual.one, Dual.new, fmul_fin_one]
    · simp [Dual.mul, Dual.one, Dual.new, fin_one_fmul, fadd_comm]

/-- C2: domain violations degrade to IEEE special values, never an
error: for any rounding oracle, `ln` and `sqrt` of a dual number with
negative real component produce a NaN real component; `ln` at real
component 0 produces `-∞`; and dividing by a dual number with real
component 0 produces non-finite (NaN or infinite) real and dual
components.  (All embedded operations are total — the Rust code has no
error or panic path.) -/
theorem domain_violations_yield_nan (O : Approx) :
    (∀ (a : ℚ) (d : FP), a < 0 →
      (Dual.ln O (Dual.new (fin a) d)).real = nan ∧
      (Dual.sqrt O (Dual.new (fin a) d)).real = nan) ∧
    (∀ d : FP, (Dual.ln O (Dual.new (fin 0) d)).real = ninf) ∧
    (∀ (x : Dual) (d : FP),
      isFinite ((Dual.div x (Dual.new (fin 0) d)).real) = false ∧
      isFinite ((Dual.div x (Dual.new (fin 0) d)).dual) = false) := by
  refine ⟨fun a d ha => ?_, fun d => ?_, fun x d => ⟨?_, ?_⟩⟩
  · constructor
    · simp [Dual.ln, Dual.new, fln, ha]
    · simp [Dual.sqrt, Dual.new, fsqrt, ha]
  · simp [Dual.ln, Dual.new, fln]
  · exact fdiv_fin_zero_nonfinite _
  · have h : fmul (fin 0) (fin 0) = fin 0 := by simp [fmul]
    simp only [Dual.div, Dual.new, h]
    exact fdiv_fin_zero_nonfinite _

/-- C2 witness: at `new(-1, 1)`, both `ln` and `sqrt` yield a NaN real
component. -/
theorem domain_violations_yield_nan_witness :
    (-1 : ℚ) < 0 ∧
    ((Dual.ln sampleApprox (Dual.new (fin (-1)) (fin 1))).real = nan ∧
     (Dual.sqrt sampleApprox (Dual.new (fin (-1)) (fin 1))).real = nan) :=
  ⟨by norm_num,
   (domain_violations_yield_nan sampleApprox).1 (-1) (fin 1) (by norm_num)⟩

/-- C3: multiplication implements the product rule: the real component
is `a·b` and the dual component is `a'·b + a·b'`; concretely
`(3, 4) * (1, 2) == (3, 10)`. -/
theorem mul_product_rule :
    (∀ x y : Dual,
      (Dual.mul x y).real = fmul x.real y.real ∧
      (Dual.mul x y).dual = fadd (fmul x.dual y.real) (fmul x.real y.dual)) ∧
    Dual.mul (Dual.new (fin 3) (fin 4)) (Dual.new (fin 1) (fin 2)) =
      Dual.new (fin 3) (fin 10) ∧
    Dual.beq (Dual.mul (Dual.new (fin 3) (fin 4)) (Dual.new (fin 1) (fin 2)))
      (Dual.new (fin 3) (fin 10)) = true := by
  refine ⟨fun x y => ⟨rfl, fadd_comm _ _⟩, ?_, ?_⟩
  · simp [Dual.mul, Dual.new, fmul, fadd]
    norm_num
  · simp [Dual.beq, Dual.mul, Dual.new, fmul, fadd, fbeq]
    norm_num

/-- C4: division implements the quotient rule with no guard against a
zero divisor: for every `x` and `y` — including `y` with real component
0 — the real component is `a/b` and the dual component is
`(a'·b − a·b') / (b·b)`, all in the scalar's own (IEEE) arithmetic;
concretely `(3, 4) / (1, 2) == (3, -2)`. -/
theorem div_quotient_rule :
    (∀ x y : Dual,
      (Dual.div x y).real = fdiv x.real y.real ∧
      (Dual.div x y).dual =
        fdiv (fsub (fmul x.dual y.real) (fmul x.real y.dual))
          (fmul y.real y.real)) ∧
    Dual.div (Dual.new (fin 3) (fin 4)) (Dual.new (fin 1) (fin 2)) =
      Dual.new (fin 3) (fin (-2)) ∧
    Dual.beq (Dual.div (Dual.new (fin 3) (fin 4)) (Dual.new (fin 1) (fin 2)))
      (Dual.new (fin 3) (fin (-2))) = true := by
  refine ⟨fun x y => ⟨rfl, rfl⟩, ?_, ?_⟩
  · simp [Dual.div, Dual.new, fmul, fadd, fsub, fneg, fdiv]
    norm_num
  · simp [Dual.beq, Dual.div, Dual.new, fmul, fadd, fsub, fneg, fdiv, fbeq]
    norm_num

/-- C5 counterexample: the additive identity is not universal over all
component values: for `x = (NaN, 0)`, `x + zero() == x` is false, since
the NaN real component is not equal to itself under the derived
(IEEE) equality. -/
theorem add_zero_nan_cex :
    Dual.beq (Dual.add (Dual.new nan (fin 0)) Dual.zero)
      (Dual.new nan (fin 0)) = false := by
  simp [Dual.beq, Dual.add, Dual.zero, Dual.new, fadd, fbeq]

/-- C5 (amended): `x + zero()` and `zero() + x` always return `x` itself
componentwise, and the equalities `x + zero() == x` and
`zero() + x == x` hold exactly when neither component of `x` is NaN;
they fail when a component is NaN, because IEEE equality is not
reflexive at NaN. -/
theorem add_zero_identity_amended :
    ∀ x : Dual,
      Dual.add x Dual.zero = x ∧ Dual.add Dual.zero x = x ∧
      Dual.beq (Dual.add x Dual.zero) x = (!x.real.isNan && !x.dual.isNan) ∧
      Dual.beq (Dual.add Dual.zero x) x = (!x.real.isNan && !x.dual.isNan) := by
  intro x
  refine ⟨dual_add_zero x, dual_zero_add x, ?_, ?_⟩
  · rw [dual_add_zero]; exact dual_beq_self x
  · rw [dual_zero_add]; exact dual_beq_self x

/-- C6 counterexample: at `(-1, 2)` the rendered string is `"-1--2ε"` —
the code prints `0 - dual = -2` after the minus sign, not the absolute
value `|dual| = 2` — so it differs from the claimed `"-1-2ε"`. -/
theorem display_abs_cex :
    display (Dual.new (fin (-1)) (fin 2)) = "-1--2ε" ∧
    display (Dual.new (fin (-1)) (fin 2)) ≠ "-1-2ε" := by
  have h : display (Dual.new (fin (-1)) (fin 2)) = "-1--2ε" := by
    simp [display, Dual.new, flt, fsub, fadd, fneg, fpRepr]
    rfl
  refine ⟨h, ?_⟩
  rw [h]
  decide

/-- C6 (amended): for finite components, Display renders
`"{real}+{dual}ε"` when `real ≥ 0` and `"{real}-{−dual}ε"` when
`real < 0` — after the minus sign comes the negation of `dual`, which
coincides with `|dual|` only when `dual ≤ 0`; when `real ≥ 0` and
`dual < 0` the output shows `+` followed by a negative number
(e.g. `"3+-2ε"`). -/
theorem display_format_amended :
    ∀ a d : ℚ,
      display (Dual.new (fin a) (fin d)) =
        if a < 0 then fpRepr (fin a) ++ "-" ++ fpRepr (fin (-d)) ++ "ε"
        else fpRepr (fin a) ++ "+" ++ fpRepr (fin d) ++ "ε" := by
  intro a d
  by_cases h : a < 0 <;>
    simp [display, Dual.new, flt, fsub, fadd, fneg, h]

/-- C7: the `From` conversion lifts a scalar with the seed convention:
`from(s)` is the dual number `(s, 1)`, its derivative component the
constant 1. -/
theorem from_seed_convention :
    ∀ s : FP,
      Dual.fromF s = Dual.new s (fin 1) ∧
      (Dual.fromF s).real = s ∧
      (Dual.fromF s).derivative = fin 1 :=
  fun _ => ⟨rfl, rfl, rfl⟩

/-- C8: `tan` is computed by refinement through the algebra's own
operations: it is exactly the dual division `sin(self) / cos(self)`,
where `sin (a, a') = (sin a, a'·cos a)` and
`cos (a, a') = (cos a, −a'·sin a)`; consequently, whenever the rounded
cosine of the real component is 0, the real component of `tan` is
non-finite (NaN or infinite), inheriting the division-by-zero
behaviour. -/
theorem tan_refines_div_sin_cos (O : Approx) :
    (∀ x : Dual,
      Dual.tan O x = Dual.div (Dual.sin O x) (Dual.cos O x) ∧
      Dual.sin O x = Dual.new (fsin O x.real) (fmul x.dual (fcos O x.real)) ∧
      Dual.cos O x =
        Dual.new (fcos O x.real) (fmul (fneg x.dual) (fsin O x.real))) ∧
    (∀ (a : ℚ) (d : FP), O.cosQ a = 0 →
      isFinite ((Dual.tan O (Dual.new (fin a) d)).real) = false) := by
  constructor
  · intro x
    refine ⟨rfl, rfl, ?_⟩
    simp [Dual.cos, Dual.new, fneg_one_fmul]
  · intro a d h
    have hreal : (Dual.tan O (Dual.new (fin a) d)).real =
        fdiv (fin (O.sinQ a)) (fin 0) := by
      simp [Dual.tan, Dual.div, Dual.sin, Dual.cos, Dual.new, fsin, fcos, h]
    rw [hreal]
    exact fdiv_fin_zero_nonfinite _

/-- C8 witness: under an oracle whose rounded cosine is 0 at the point
0, the real component of `tan (0, 1)` is non-finite. -/
theorem tan_refines_div_sin_cos_witness :
    cosZeroApprox.cosQ 0 = 0 ∧
    isFinite ((Dual.tan cosZeroApprox (Dual.new (fin 0) (fin 1))).real) = false :=
  ⟨rfl, (tan_refines_div_sin_cos cosZeroApprox).2 0 (fin 1) rfl⟩

/-- C9: `sqrt` implements the chain rule: for a positive real component
`a` the result has real component `sqrt a` (the rounded square root)
and dual component `a' / (2·sqrt a)`; in particular, since IEEE `sqrt`
is exact on the representable square 4, seeding `x = (4, 1)` gives
exactly `(2, 1/4)`. -/
theorem sqrt_chain_rule (O : Approx) :
    (∀ (a : ℚ) (d : FP), 0 < a →
      Dual.sqrt O (Dual.new (fin a) d) =
        Dual.new (fin (O.sqrtQ a)) (fdiv d (fin (2 * O.sqrtQ a)))) ∧
    (O.sqrtQ 4 = 2 →
      Dual.sqrt O (Dual.new (fin 4) (fin 1)) =
        Dual.new (fin 2) (fin (1/4))) := by
  constructor
  · intro a d ha
    have hlt : ¬ a < 0 := not_lt.mpr ha.le
    simp [Dual.sqrt, Dual.new, fsqrt, hlt, fadd, fmul]
    norm_num [two_mul]
  · intro h4
    have : ¬ (4 : ℚ) < 0 := by norm_num
    simp [Dual.sqrt, Dual.new, fsqrt, this, h4, fadd, fmul, fdiv]
    norm_num

/-- C9 witness: with a concrete oracle computing the exact square root
of the perfect square 4, `sqrt (4, 1)` evaluates to exactly
`(2, 1/4)`. -/
theorem sqrt_chain_rule_witness :
    (0 : ℚ) < 4 ∧ sampleApprox.sqrtQ 4 = 2 ∧
    Dual.sqrt sampleApprox (Dual.new (fin 4) (fin 1)) =
      Dual.new (fin 2) (fin (1/4)) := by
  have h4 : sampleApprox.sqrtQ 4 = 2 := by
    show ((Nat.sqrt (4 : ℚ).num.toNat : ℚ)) = 2
    have hn : (4 : ℚ).num.toNat = 4 := rfl
    rw [hn]
    have hs : Nat.sqrt 4 = 2 := by
      rw [show (4 : ℕ) = 2 * 2 from rfl]
      exact Nat.sqrt_eq 2
    rw [hs]
    norm_num
  exact ⟨by norm_num, h4, (sqrt_chain_rule sampleApprox).2 h4⟩

/-- C10: the derived equality on dual numbers is exact and
componentwise: it is the conjunction of the scalar (IEEE) equalities of
the two components; on finite components it holds iff the exact
rational values coincide (no epsilon tolerance); self-equality holds
exactly when no component is NaN, so a dual number with a NaN
component — e.g. `(NaN, 0)` — is not equal to itself. -/
theorem eq_exact_componentwise :
    (∀ x y : Dual,
      Dual.beq x y = (fbeq x.real y.real && fbeq x.dual y.dual)) ∧
    (∀ p q p' q' : ℚ,
      Dual.beq (Dual.new (fin p) (fin p')) (Dual.new (fin q) (fin q')) = true ↔
        (p = q ∧ p' = q')) ∧
    (∀ x : Dual, Dual.beq x x = (!x.real.isNan && !x.dual.isNan)) ∧
    Dual.beq (Dual.new nan (fin 0)) (Dual.new nan (fin 0)) = false := by
  refine ⟨fun x y => rfl, fun p q p' q' => ?_, dual_beq_self, ?_⟩
  · simp [Dual.beq, Dual.new, fbeq]
  · simp [Dual.beq, Dual.new, fbeq]

end Claims

end Duality
